import Mathlib

/-
  Verification of the costconfirm auth/security core.

  Shallow embedding of the authentication, lockout, rate-limit, token,
  session, authorization-guard and account-lifecycle operations of the
  repository.  Machine times are milliseconds since epoch as Nat; database
  tables are lists of rows; exceptions are modelled by Option/Except or a
  Bool success flag; the bcrypt primitives are oracle parameters.
-/

namespace CostConfirm

/-- User role, from the Prisma enum used across the repository. -/
inductive Role where
  | CLIENT
  | ADMIN
deriving DecidableEq, Repr

/-- A row of the SecurityLog table (security-logger.ts, logSecurityEvent).
    The details of a log entry are modelled as key-value string pairs. -/
structure SecurityLogRow where
  event : String
  userId : Option String := none
  email : Option String := none
  resource : Option String := none
  action : Option String := none
  details : List (String × String) := []
  createdAt : Nat := 0
deriving DecidableEq, Repr

/-- A row of the User table (prisma schema; fields used by the auth core). -/
structure User where
  id : String
  email : String
  name : Option String := none
  role : Role := Role.CLIENT
  hashedPassword : Option String := none
  emailVerified : Option Nat := none
  image : Option String := none
  deletedAt : Option Nat := none
deriving DecidableEq, Repr

/-- A row of the Project table (fields used by ownership checks and
    the account lifecycle). -/
structure Project where
  id : String
  userId : String
  deletedAt : Option Nat := none
deriving DecidableEq, Repr

/-- A child row of a project: actualCost, projectedCost or buildPhase
    (only the foreign key matters for the lifecycle operations). -/
structure ChildRow where
  id : String
  projectId : String
deriving DecidableEq, Repr

/-- A row of the Session table (only the owner matters here). -/
structure SessionRow where
  userId : String
deriving DecidableEq, Repr

/-- A row of the (OAuth) Account table. -/
structure OAuthAccountRow where
  userId : String
deriving DecidableEq, Repr

/-- A row of the VerificationToken table, shared by email verification
    (identifier = email) and password reset (identifier = "reset:" ++ email). -/
structure TokenRow where
  identifier : String
  token : String
  expires : Nat
deriving DecidableEq, Repr

/-- The persistent state touched by the modelled operations. -/
structure AppState where
  users : List User := []
  projects : List Project := []
  actualCosts : List ChildRow := []
  projectedCosts : List ChildRow := []
  buildPhases : List ChildRow := []
  sessions : List SessionRow := []
  oauthAccounts : List OAuthAccountRow := []
  tokens : List TokenRow := []
  securityLogs : List SecurityLogRow := []
deriving DecidableEq, Repr

/-! ## Account lockout (lib/account-lockout.ts) -/

/-- LOCKOUT_THRESHOLD: failed attempts before lockout. -/
def lockoutThreshold : Nat := 5

/-- LOCKOUT_DURATION: 15 minutes in milliseconds. -/
def lockoutDuration : Nat := 15 * 60 * 1000

/-- ATTEMPT_WINDOW: 30 minutes in milliseconds. -/
def attemptWindow : Nat := 30 * 60 * 1000

/-- Per-email lockout state, as in the in-memory lockoutStore. -/
structure LockoutState where
  attempts : Nat
  firstAttemptAt : Nat
  lockedUntil : Option Nat := none
  lastAttemptAt : Nat
deriving DecidableEq, Repr

/-- checkAccountLockout for one email: the store entry is an
    Option LockoutState; an error carries the remaining milliseconds of the
    lock (the source throws with that remaining time rendered in minutes and
    seconds).  An expired lock removes the entry from the store. -/
def checkAccountLockout (st : Option LockoutState) (now : Nat) :
    Except Nat (Option LockoutState) :=
  match st with
  | none => .ok none
  | some s =>
    match s.lockedUntil with
    | none => .ok (some s)
    | some u => if u ≤ now then .ok none else .error (u - now)

/-- The unauthorized_access / account_lockout entry written on the
    transition into the locked state (recordFailedAttempt). -/
def accountLockoutRow (email : String) (attempts now : Nat) : SecurityLogRow :=
  { event := "unauthorized_access", email := some email,
    action := some "account_lockout",
    details := [("reason", "Too many failed login attempts"),
                ("attempts", toString attempts),
                ("threshold", toString lockoutThreshold)],
    createdAt := now }

/-- recordFailedAttempt for one email: returns the updated store entry and
    the security-log rows the call writes (one on reaching the threshold,
    none otherwise). -/
def recordFailedAttempt (st : Option LockoutState) (email : String) (now : Nat) :
    LockoutState × List SecurityLogRow :=
  let s0 := st.getD { attempts := 0, firstAttemptAt := now, lastAttemptAt := now }
  let s1 : LockoutState :=
    if attemptWindow < now - s0.firstAttemptAt then
      { attempts := 1, firstAttemptAt := now, lockedUntil := none, lastAttemptAt := now }
    else
      { s0 with attempts := s0.attempts + 1, lastAttemptAt := now }
  if lockoutThreshold ≤ s1.attempts then
    ({ s1 with lockedUntil := some (now + lockoutDuration) },
     [accountLockoutRow email s1.attempts now])
  else
    (s1, [])

/-- resetFailedAttempts: deletes the store entry for the email. -/
def resetFailedAttempts (_ : Option LockoutState) : Option LockoutState := none

/-! ## Rate limiter (lib/rate-limit.ts) -/

namespace InMemoryRateLimiter

/-- The limit method: prune timestamps outside the window, reject when the
    count reached the limit (store untouched), otherwise record the attempt.
    The store entry for one key is its list of request timestamps. -/
def limit (requests : List Nat) (lim window now : Nat) : Bool × List Nat :=
  let recent := requests.filter (fun ts => decide (now - ts < window))
  if lim ≤ recent.length then
    (false, requests)
  else
    (true, recent ++ [now])

/-- The reset method: clears the entry for the key. -/
def reset (_ : List Nat) : List Nat := []

end InMemoryRateLimiter

/-- checkAuthRateLimit: 5 attempts per minute per email. -/
def checkAuthRateLimit (requests : List Nat) (now : Nat) : Bool × List Nat :=
  InMemoryRateLimiter.limit requests 5 (60 * 1000) now

/-! ## Security-logger helper rows used by the credentials authorize flow -/

/-- logAuthFailure row. -/
def authFailureRow (email reason : String) (now : Nat) : SecurityLogRow :=
  { event := "auth_failure", email := some email,
    details := [("reason", reason)], createdAt := now }

/-- logAuthSuccess row. -/
def authSuccessRow (userId email : String) (now : Nat) : SecurityLogRow :=
  { event := "auth_success", userId := some userId, email := some email,
    createdAt := now }

/-- logRateLimit row for the auth scope. -/
def authRateLimitRow (email : String) (now : Nat) : SecurityLogRow :=
  { event := "auth_rate_limit", email := some email,
    details := [("type", "auth")], createdAt := now }

/-! ## Credentials authorize (full NextAuth config, lib/auth.ts) -/

/-- The fixed dummy bcrypt hash compared against when the account is
    missing, passwordless or soft-deleted. -/
def dummyBcryptHash : String :=
  "$2a$12$invalidhashtopreventtimingattacks1234567890123456789012"

/-- The object the authorize callback returns on success. -/
structure AuthorizeUser where
  id : String
  email : String
  name : Option String
  role : Role
deriving DecidableEq, Repr

/-- Which exit the authorize callback took. -/
inductive AuthBranch where
  | missingCredentials
  | locked
  | rateLimited
  | noUser
  | wrongPassword
  | success
deriving DecidableEq, Repr

/-- Result of one authorize call: the returned user (none = reject), the
    branch taken, the security-log rows written, the list of
    (password, hash) pairs passed to verifyPassword, and the updated
    lockout-store entry and rate-limit entry for the email. -/
structure AuthOutcome where
  user : Option AuthorizeUser
  branch : AuthBranch
  logs : List SecurityLogRow
  compares : List (String × String)
  lockSt : Option LockoutState
  rl : List Nat
deriving Repr

/-- The shared reject path of the authorize callback: log auth_failure with
    the given reason, record the failed attempt (which may add the lockout
    event and lock the entry), and return null.  comparedHash is the hash
    the preceding verifyPassword call consumed: the stored hash on a real
    mismatch, the fixed dummy hash when the account is missing,
    passwordless or soft-deleted. -/
def failureOutcome (branch : AuthBranch) (email password reason comparedHash : String)
    (lockSt1 : Option LockoutState) (rl1 : List Nat) (now : Nat) : AuthOutcome :=
  { user := none, branch := branch,
    logs := authFailureRow email reason now :: (recordFailedAttempt lockSt1 email now).2,
    compares := [(password, comparedHash)],
    lockSt := some (recordFailedAttempt lockSt1 email now).1, rl := rl1 }

/-- The authorize callback of the Credentials provider in the full NextAuth
    config.  verify is the bcrypt comparison oracle; user is the row
    db.user.findUnique returns for the email (none when absent); lockSt and
    rl are the lockout and rate-limit store entries for the email. -/
def authorize (verify : String → String → Bool) (email password : String)
    (lockSt : Option LockoutState) (rl : List Nat) (user : Option User)
    (now : Nat) : AuthOutcome :=
  if email = "" ∨ password = "" then
    { user := none, branch := .missingCredentials, logs := [], compares := [],
      lockSt := lockSt, rl := rl }
  else
    match checkAccountLockout lockSt now with
    | .error _ =>
      { user := none, branch := .locked, logs := [], compares := [],
        lockSt := lockSt, rl := rl }
    | .ok lockSt1 =>
      match checkAuthRateLimit rl now with
      | (false, rl1) =>
        { user := none, branch := .rateLimited, logs := [authRateLimitRow email now],
          compares := [], lockSt := lockSt1, rl := rl1 }
      | (true, rl1) =>
        match user with
        | none =>
          failureOutcome .noUser email password "Invalid credentials" dummyBcryptHash
            lockSt1 rl1 now
        | some u =>
          match u.hashedPassword, u.deletedAt with
          | some h, none =>
            if verify password h then
              { user := some { id := u.id, email := u.email, name := u.name, role := u.role },
                branch := .success,
                logs := [authSuccessRow u.id u.email now],
                compares := [(password, h)],
                lockSt := resetFailedAttempts lockSt1,
                rl := InMemoryRateLimiter.reset rl1 }
            else
              failureOutcome .wrongPassword email password "Invalid password" h
                lockSt1 rl1 now
          | _, _ =>
            failureOutcome .noUser email password
              (if u.deletedAt ≠ none then "Account deleted" else "Invalid credentials")
              dummyBcryptHash lockSt1 rl1 now

/-! ## Token store (lib/email-verification.ts, lib/password-reset.ts) -/

/-- TOKEN_EXPIRY of email verification: 24 hours in milliseconds. -/
def verificationTokenExpiry : Nat := 24 * 60 * 60 * 1000

/-- TOKEN_EXPIRY of password reset: 1 hour in milliseconds. -/
def resetTokenExpiry : Nat := 60 * 60 * 1000

/-- createVerificationToken: deleteMany of all tokens with the email as
    identifier, then create the new one expiring 24 hours ahead.  The random
    token value is a parameter. -/
def createVerificationToken (email tok : String) (now : Nat) (st : AppState) : AppState :=
  { st with tokens :=
      st.tokens.filter (fun r => decide (r.identifier ≠ email)) ++
        [{ identifier := email, token := tok, expires := now + verificationTokenExpiry }] }

/-- createPasswordResetToken: deleteMany of all tokens whose identifier is
    "reset:" ++ email, then create the new one expiring 1 hour ahead. -/
def createPasswordResetToken (email tok : String) (now : Nat) (st : AppState) : AppState :=
  { st with tokens :=
      st.tokens.filter (fun r => decide (r.identifier ≠ "reset:" ++ email)) ++
        [{ identifier := "reset:" ++ email, token := tok, expires := now + resetTokenExpiry }] }

/-- The generic failure message of verifyEmail for an absent or expired
    token (the same string in both cases). -/
def invalidVerificationMessage : String :=
  "Invalid or expired verification link. Please request a new one."

/-- The success message of verifyEmail. -/
def verifySuccessMessage : String :=
  "Email verified successfully! You can now sign in."

/-- The catch-all failure message of verifyEmail (a thrown database error). -/
def verifyCatchMessage : String :=
  "Failed to verify email. Please try again."

/-- Return shape of verifyEmail. -/
structure VerifyResult where
  success : Bool
  message : String
  email : Option String := none
deriving DecidableEq, Repr

/-- verifyEmail: findFirst of a non-expired row with the token value; on a
    hit, mark the user with the identifier email verified, delete the
    token rows with that identifier and log a data_access event; a missing
    user makes the update throw, which the catch turns into a generic
    failure with no state change (the transaction-free effects before the
    throw are none). -/
def verifyEmail (tok : String) (now : Nat) (st : AppState) : VerifyResult × AppState :=
  match st.tokens.find? (fun r => decide (r.token = tok) && decide (now < r.expires)) with
  | none => ({ success := false, message := invalidVerificationMessage }, st)
  | some row =>
    match st.users.find? (fun u => decide (u.email = row.identifier)) with
    | none => ({ success := false, message := verifyCatchMessage }, st)
    | some u =>
      ({ success := true, message := verifySuccessMessage, email := some row.identifier },
       { st with
          users := st.users.map (fun v =>
            if decide (v.email = row.identifier) then { v with emailVerified := some now } else v),
          tokens := st.tokens.filter (fun r => decide (r.identifier ≠ row.identifier)),
          securityLogs := st.securityLogs ++
            [{ event := "data_access", userId := some u.id, email := some u.email,
               action := some "email_verified", createdAt := now }] })

/-- Return shape of resetPassword. -/
structure ResetResult where
  success : Bool
  message : String
deriving DecidableEq, Repr

/-- resetPassword: rejects a new password shorter than 8 characters before
    touching any state; otherwise findFirst of a live token whose identifier
    carries the reset prefix, lookup of a non-deleted user under the
    identifier with the prefix stripped (the source strips via replace;
    "reset:" has 6 characters), update of the credential hash, deletion of
    exactly that token row, and a password_reset_completed log entry.
    hash is the bcrypt oracle. -/
def resetPassword (hash : String → String) (tok newPassword : String) (now : Nat)
    (st : AppState) : ResetResult × AppState :=
  if newPassword.length < 8 then
    ({ success := false, message := "Password must be at least 8 characters long." }, st)
  else
    match st.tokens.find? (fun r =>
        decide (r.token = tok) &&
          (decide (now < r.expires) && "reset:".data.isPrefixOf r.identifier.data)) with
    | none =>
      ({ success := false, message := "Invalid or expired reset link. Please request a new one." }, st)
    | some row =>
      match st.users.find? (fun u =>
          decide (u.email = row.identifier.drop 6) && decide (u.deletedAt = none)) with
      | none => ({ success := false, message := "User not found." }, st)
      | some u =>
        ({ success := true,
           message := "Password reset successfully! You can now sign in with your new password." },
         { st with
            users := st.users.map (fun v =>
              if decide (v.id = u.id) then { v with hashedPassword := some (hash newPassword) } else v),
            tokens := st.tokens.filter (fun r =>
              decide (¬ (r.identifier = row.identifier ∧ r.token = row.token))),
            securityLogs := st.securityLogs ++
              [{ event := "password_reset_completed", userId := some u.id,
                 email := some u.email, createdAt := now }] })

/-! ## Ownership check (lib/actions, verifyProjectAccess) -/

/-- verifyProjectAccess: findFirst by project id, with the owner filter
    added only for CLIENT callers; none models the thrown
    "Project not found or unauthorized" error. -/
def verifyProjectAccess (projects : List Project) (projectId userId : String)
    (userRole : Role) : Option Project :=
  projects.find? (fun p =>
    decide (p.id = projectId) &&
      (if userRole = Role.CLIENT then decide (p.userId = userId) else true))

/-- One run of verifyProjectAccess together with the security-log rows it
    writes: the source function contains no logging call, so that list is
    empty on every path. -/
def verifyProjectAccessRun (projects : List Project) (projectId userId : String)
    (userRole : Role) : Option Project × List SecurityLogRow :=
  (verifyProjectAccess projects projectId userId userRole, [])

/-! ## Account lifecycle (lib/actions/user-management.ts) -/

/-- deleteUserAccount (soft delete): in one transaction, soft-delete the
    non-deleted projects of the account, anonymize the user row, and delete
    its sessions and OAuth accounts; then log data_deletion.  A missing user
    row makes the update throw, rolling the transaction back (failure, no
    change).  sessionEmail is the email of the requireAuth principal, used
    only in the log row. -/
def deleteUserAccount (userId : String) (sessionEmail : Option String) (now : Nat)
    (st : AppState) : Bool × AppState :=
  match st.users.find? (fun u => decide (u.id = userId)) with
  | none => (false, st)
  | some _ =>
    (true,
     { st with
        projects := st.projects.map (fun p =>
          if decide (p.userId = userId) && decide (p.deletedAt = none) then
            { p with deletedAt := some now } else p),
        users := st.users.map (fun u =>
          if decide (u.id = userId) then
            { u with deletedAt := some now,
                     email := "deleted_" ++ userId ++ "@deleted.local",
                     name := some "Deleted User",
                     hashedPassword := none, image := none, emailVerified := none }
          else u),
        sessions := st.sessions.filter (fun s => decide (s.userId ≠ userId)),
        oauthAccounts := st.oauthAccounts.filter (fun a => decide (a.userId ≠ userId)),
        securityLogs := st.securityLogs ++
          [{ event := "data_deletion", userId := some userId, email := sessionEmail,
             action := some "delete_account", resource := some "user",
             details := [("deletionType", "soft_delete")], createdAt := now }] })

/-- permanentlyDeleteUser (hard delete, admin only): in one transaction,
    delete the child cost/phase rows of the projects the target owns, the
    projects, sessions, OAuth accounts, the security-log rows with the
    target as userId, and the user row; then log an admin_action entry for
    the acting admin.  A non-admin caller or a missing target leaves the
    state unchanged. -/
def permanentlyDeleteUser (adminId : String) (adminRole : Role) (targetId : String)
    (now : Nat) (st : AppState) : Bool × AppState :=
  if adminRole ≠ Role.ADMIN then (false, st)
  else
    match st.users.find? (fun u => decide (u.id = targetId)) with
    | none => (false, st)
    | some _ =>
      let owned : String → Bool := fun pid =>
        st.projects.any (fun p => decide (p.id = pid) && decide (p.userId = targetId))
      (true,
       { st with
          actualCosts := st.actualCosts.filter (fun c => ! owned c.projectId),
          projectedCosts := st.projectedCosts.filter (fun c => ! owned c.projectId),
          buildPhases := st.buildPhases.filter (fun c => ! owned c.projectId),
          projects := st.projects.filter (fun p => decide (p.userId ≠ targetId)),
          sessions := st.sessions.filter (fun s => decide (s.userId ≠ targetId)),
          oauthAccounts := st.oauthAccounts.filter (fun a => decide (a.userId ≠ targetId)),
          users := st.users.filter (fun u => decide (u.id ≠ targetId)),
          securityLogs :=
            st.securityLogs.filter (fun r => decide (r.userId ≠ some targetId)) ++
              [{ event := "admin_action", userId := some adminId,
                 action := some "permanent_delete_user",
                 resource := some ("user:" ++ targetId),
                 details := [("deletionType", "hard_delete")], createdAt := now }] })

/-- restoreUser (admin only): clears the soft-delete marker on the user and
    on all of its projects, then logs an admin_action entry. -/
def restoreUser (adminId : String) (adminRole : Role) (targetId : String)
    (now : Nat) (st : AppState) : Bool × AppState :=
  if adminRole ≠ Role.ADMIN then (false, st)
  else
    match st.users.find? (fun u => decide (u.id = targetId)) with
    | none => (false, st)
    | some _ =>
      (true,
       { st with
          users := st.users.map (fun u =>
            if decide (u.id = targetId) then { u with deletedAt := none } else u),
          projects := st.projects.map (fun p =>
            if decide (p.userId = targetId) then { p with deletedAt := none } else p),
          securityLogs := st.securityLogs ++
            [{ event := "admin_action", userId := some adminId,
               action := some "restore_user", resource := some ("user:" ++ targetId),
               createdAt := now }] })

/-! ## Session layer (auth.config.ts and the callbacks of the full config) -/

/-- The JWT payload fields the repository reads or writes. -/
structure JwtToken where
  sub : Option String := none
  name : Option String := none
  email : Option String := none
  role : Option Role := none
  emailVerified : Option Nat := none
deriving DecidableEq, Repr

/-- The session.user object handed to the application. -/
structure SessionUser where
  id : String := ""
  name : Option String := none
  email : Option String := none
  role : Option Role := none
  emailVerified : Option Nat := none
deriving DecidableEq, Repr

/-- The default initial JWT NextAuth builds at sign-in from the object the
    authorize callback returned: name, email and sub. -/
def initialToken (u : AuthorizeUser) : JwtToken :=
  { sub := some u.id, name := u.name, email := some u.email }

/-- The jwt callback of the full config: on first creation (user present)
    it sets sub and role on the token; nothing else is copied. -/
def jwtCallback (token : JwtToken) (user : Option AuthorizeUser) : JwtToken :=
  match user with
  | some u => { token with sub := some u.id, role := some u.role }
  | none => token

/-- The session callback of the edge config (auth.config.ts): maps sub,
    role and emailVerified from the token onto session.user. -/
def sessionCallback (token : JwtToken) (su : SessionUser) : SessionUser :=
  { su with id := token.sub.getD "", role := token.role,
            emailVerified := token.emailVerified }

/-- The base session.user NextAuth builds from the decoded token before the
    session callback runs: name and email only. -/
def baseSessionUser (token : JwtToken) : SessionUser :=
  { name := token.name, email := token.email }

/-- Decode a token into the session.user the application sees. -/
def decodeSessionUser (token : JwtToken) : SessionUser :=
  sessionCallback token (baseSessionUser token)

/-- Encode-then-decode at credential-accept time: the authorize callback
    returns id, email, name and role of the account row; the jwt callback
    builds the signed token; decoding yields the session principal. -/
def signInRoundTrip (u : User) : SessionUser :=
  let au : AuthorizeUser := { id := u.id, email := u.email, name := u.name, role := u.role }
  decodeSessionUser (jwtCallback (initialToken au) (some au))

/-! ## The modelled application operations as one step function -/

/-- One application-level operation touching the persistent state. -/
inductive AppOp where
  | logEvent (row : SecurityLogRow)
  | issueVerification (email tok : String)
  | issueReset (email tok : String)
  | verifyEmailOp (tok : String)
  | resetPasswordOp (hash : String → String) (tok newPassword : String)
  | softDeleteOp (userId : String) (sessionEmail : Option String)
  | hardDeleteOp (adminId : String) (adminRole : Role) (targetId : String)
  | restoreUserOp (adminId : String) (adminRole : Role) (targetId : String)

/-- Apply one operation at one instant. -/
def applyOp (op : AppOp) (now : Nat) (st : AppState) : AppState :=
  match op with
  | .logEvent row => { st with securityLogs := st.securityLogs ++ [{ row with createdAt := now }] }
  | .issueVerification e tk => createVerificationToken e tk now st
  | .issueReset e tk => createPasswordResetToken e tk now st
  | .verifyEmailOp tk => (verifyEmail tk now st).2
  | .resetPasswordOp hash tk pw => (resetPassword hash tk pw now st).2
  | .softDeleteOp uid se => (deleteUserAccount uid se now st).2
  | .hardDeleteOp a r t => (permanentlyDeleteUser a r t now st).2
  | .restoreUserOp a r t => (restoreUser a r t now st).2

/-- Number of token rows carrying one identifier. -/
def countIdent (ident : String) : List TokenRow → Nat
  | [] => 0
  | r :: rs => (if r.identifier = ident then 1 else 0) + countIdent ident rs

/-- At most one token row per identifier; the two purposes of the shared
    table live under distinct identifiers (bare email versus reset prefix). -/
def tokenUniq (st : AppState) : Prop :=
  ∀ ident, countIdent ident st.tokens ≤ 1

/-! ## List helper lemmas -/

lemma find?_and_eq_none {α : Type} (l : List α) (p q : α → Bool)
    (h : l.filter p = []) : l.find? (fun a => p a && q a) = none := by
  rw [List.find?_eq_none]
  intro x hx
  have hp : p x = false := by simpa using List.filter_eq_nil_iff.1 h x hx
  simp [hp]

lemma filter_sub_nil {α : Type} (l : List α) (p d : α → Bool)
    (h : l.filter p = []) : (l.filter d).filter p = [] := by
  rw [List.filter_filter, List.filter_eq_nil_iff] at *
  intro a ha
  have hp : p a = false := by simpa using h a ha
  simp [hp]

lemma token_find_of_filter_singleton (l : List TokenRow) (tok : String)
    (q : TokenRow → Bool) (row : TokenRow)
    (h : l.filter (fun r => decide (r.token = tok)) = [row]) (hq : q row = true) :
    l.find? (fun r => decide (r.token = tok) && q r) = some row := by
  induction l with
  | nil => simp at h
  | cons a as ih =>
    by_cases ha : a.token = tok
    · rw [List.filter_cons_of_pos (by simpa using ha)] at h
      obtain ⟨rfl, hrest⟩ : a = row ∧ as.filter (fun r => decide (r.token = tok)) = [] := by
        simpa using h
      simp [List.find?_cons, ha, hq]
    · rw [List.filter_cons_of_neg (by simpa using ha)] at h
      simpa [List.find?_cons, ha] using ih h

lemma filter_token_delete (l : List TokenRow) (tok : String) (row : TokenRow)
    (d : TokenRow → Bool)
    (h : l.filter (fun r => decide (r.token = tok)) = [row]) (hd : d row = false) :
    (l.filter d).filter (fun r => decide (r.token = tok)) = [] := by
  induction l with
  | nil => simp at h
  | cons a as ih =>
    by_cases ha : a.token = tok
    · rw [List.filter_cons_of_pos (by simpa using ha)] at h
      obtain ⟨rfl, hrest⟩ : a = row ∧ as.filter (fun r => decide (r.token = tok)) = [] := by
        simpa using h
      rw [List.filter_cons_of_neg (by simp [hd])]
      exact filter_sub_nil as _ d hrest
    · rw [List.filter_cons_of_neg (by simpa using ha)] at h
      by_cases hda : d a = true
      · rw [List.filter_cons_of_pos hda, List.filter_cons_of_neg (by simp [ha])]
        exact ih h
      · rw [List.filter_cons_of_neg (by simpa using hda)]
        exact ih h

lemma countIdent_append (i : String) (l m : List TokenRow) :
    countIdent i (l ++ m) = countIdent i l + countIdent i m := by
  induction l with
  | nil => simp [countIdent]
  | cons a as ih => simp [countIdent, ih, Nat.add_assoc]

lemma countIdent_filter_le (i : String) (p : TokenRow → Bool) (l : List TokenRow) :
    countIdent i (l.filter p) ≤ countIdent i l := by
  induction l with
  | nil => simp [countIdent]
  | cons a as ih =>
    by_cases hp : p a = true
    · rw [List.filter_cons_of_pos hp]
      simp only [countIdent]
      exact Nat.add_le_add_left ih _
    · rw [List.filter_cons_of_neg (by simpa using hp)]
      simp only [countIdent]
      exact le_trans ih (Nat.le_add_left _ _)

lemma countIdent_filter_ne (e : String) (l : List TokenRow) :
    countIdent e (l.filter (fun r => decide (r.identifier ≠ e))) = 0 := by
  induction l with
  | nil => simp [countIdent]
  | cons a as ih =>
    by_cases ha : a.identifier = e
    · rw [List.filter_cons_of_neg (by simp [ha])]
      exact ih
    · rw [List.filter_cons_of_pos (by simpa using ha)]
      simp only [countIdent, if_neg ha, ih]

/-! ## Branch characterizations of the state operations -/

lemma verifyEmail_tokens (tok : String) (now : Nat) (st : AppState) :
    (verifyEmail tok now st).2.tokens = st.tokens ∨
    ∃ d, (verifyEmail tok now st).2.tokens = st.tokens.filter d := by
  unfold verifyEmail
  split
  · exact Or.inl rfl
  · split
    · exact Or.inl rfl
    · exact Or.inr ⟨_, rfl⟩

lemma resetPassword_tokens (hash : String → String) (tok pw : String) (now : Nat)
    (st : AppState) :
    (resetPassword hash tok pw now st).2.tokens = st.tokens ∨
    ∃ d, (resetPassword hash tok pw now st).2.tokens = st.tokens.filter d := by
  unfold resetPassword
  split
  · exact Or.inl rfl
  · split
    · exact Or.inl rfl
    · split
      · exact Or.inl rfl
      · exact Or.inr ⟨_, rfl⟩

lemma deleteUserAccount_tokens (uid : String) (se : Option String) (now : Nat)
    (st : AppState) : (deleteUserAccount uid se now st).2.tokens = st.tokens := by
  unfold deleteUserAccount
  split <;> rfl

lemma permanentlyDeleteUser_tokens (a : String) (r : Role) (t : String) (now : Nat)
    (st : AppState) : (permanentlyDeleteUser a r t now st).2.tokens = st.tokens := by
  unfold permanentlyDeleteUser
  split
  · rfl
  · split <;> rfl

lemma restoreUser_tokens (a : String) (r : Role) (t : String) (now : Nat)
    (st : AppState) : (restoreUser a r t now st).2.tokens = st.tokens := by
  unfold restoreUser
  split
  · rfl
  · split <;> rfl

lemma verifyEmail_logs (tok : String) (now : Nat) (st : AppState) :
    ∃ tail, (verifyEmail tok now st).2.securityLogs = st.securityLogs ++ tail := by
  unfold verifyEmail
  split
  · exact ⟨[], by simp⟩
  · split
    · exact ⟨[], by simp⟩
    · exact ⟨_, rfl⟩

lemma resetPassword_logs (hash : String → String) (tok pw : String) (now : Nat)
    (st : AppState) :
    ∃ tail, (resetPassword hash tok pw now st).2.securityLogs = st.securityLogs ++ tail := by
  unfold resetPassword
  split
  · exact ⟨[], by simp⟩
  · split
    · exact ⟨[], by simp⟩
    · split
      · exact ⟨[], by simp⟩
      · exact ⟨_, rfl⟩

lemma deleteUserAccount_logs (uid : String) (se : Option String) (now : Nat)
    (st : AppState) :
    ∃ tail, (deleteUserAccount uid se now st).2.securityLogs = st.securityLogs ++ tail := by
  unfold deleteUserAccount
  split
  · exact ⟨[], by simp⟩
  · exact ⟨_, rfl⟩

lemma restoreUser_logs (a : String) (r : Role) (t : String) (now : Nat)
    (st : AppState) :
    ∃ tail, (restoreUser a r t now st).2.securityLogs = st.securityLogs ++ tail := by
  unfold restoreUser
  split
  · exact ⟨[], by simp⟩
  · split
    · exact ⟨[], by simp⟩
    · exact ⟨_, rfl⟩

lemma permanentlyDeleteUser_logs (a : String) (r : Role) (t : String) (now : Nat)
    (st : AppState) :
    (permanentlyDeleteUser a r t now st).2.securityLogs = st.securityLogs ∨
    ∃ tail, (permanentlyDeleteUser a r t now st).2.securityLogs =
      st.securityLogs.filter (fun x => decide (x.userId ≠ some t)) ++ tail := by
  unfold permanentlyDeleteUser
  split
  · exact Or.inl rfl
  · split
    · exact Or.inl rfl
    · exact Or.inr ⟨_, rfl⟩

/-! ## Claim C1: session round-trip -/

/-- A concrete verified account at sign-in time. -/
def verifiedAccount : User :=
  { id := "u1", email := "a@b.c", name := some "Alice", role := Role.CLIENT,
    hashedPassword := some "h", emailVerified := some 1111 }

/-- Claim C1: encoding the principal of a verified account into the signed
    session token and decoding it back preserves accountId and role but
    loses emailVerified: the jwt callback of the full config never writes
    emailVerified into the token and the authorize callback does not return
    it, so the decoded session reads none although the account has a
    verification timestamp.  This contradicts the session callback of
    auth.config.ts, which maps token.emailVerified for the middleware, and
    the verify-success page, which expects a fresh JWT to carry
    emailVerified from the database. -/
theorem session_roundtrip_drops_emailVerified :
    (signInRoundTrip verifiedAccount).id = verifiedAccount.id ∧
    (signInRoundTrip verifiedAccount).role = some verifiedAccount.role ∧
    verifiedAccount.emailVerified = some 1111 ∧
    (signInRoundTrip verifiedAccount).emailVerified = none :=
  ⟨rfl, rfl, rfl, rfl⟩

/-! ## Claim C2: anti-IDOR contract -/

/-- A single project owned by u2. -/
def idorProjects : List Project := [{ id := "p1", userId := "u2" }]

/-- Claim C2, counterexample: a CLIENT principal u1 requesting the project
    of u2 is denied (the access check returns none, the thrown error), yet
    the run writes no security-log rows at all, in particular not exactly
    one idor_attempt entry as the claim states. -/
theorem ownership_check_logs_nothing_counterexample :
    (verifyProjectAccessRun idorProjects "p1" "u1" Role.CLIENT).1 = none ∧
    (verifyProjectAccessRun idorProjects "p1" "u1" Role.CLIENT).2 = [] ∧
    ¬ ((verifyProjectAccessRun idorProjects "p1" "u1" Role.CLIENT).2.filter
        (fun r => decide (r.event = "idor_attempt"))).length = 1 :=
  ⟨rfl, rfl, by decide⟩

/-- Claim C2, amended: whenever a non-admin principal requests a project
    whose owner differs from the principal, verifyProjectAccess throws the
    generic not-found error and writes no security-log entry; the
    idor_attempt logging helper exists in the security logger but is not
    invoked by the ownership check. -/
theorem ownership_check_denies_without_logging :
    ∀ (projects : List Project) (pid uid : String),
      (∀ p ∈ projects, p.id = pid → p.userId ≠ uid) →
      (verifyProjectAccessRun projects pid uid Role.CLIENT).1 = none ∧
      (verifyProjectAccessRun projects pid uid Role.CLIENT).2 = [] := by
  intro projects pid uid h
  constructor
  · show verifyProjectAccess projects pid uid Role.CLIENT = none
    unfold verifyProjectAccess
    rw [List.find?_eq_none]
    intro p hp
    by_cases hid : p.id = pid
    · have hne := h p hp hid
      simp [hid, hne]
    · simp [hid]
  · rfl

/-- Witness for the amended C2 theorem at a concrete input. -/
theorem ownership_check_denies_without_logging_witness :
    (∀ p ∈ idorProjects, p.id = "p1" → p.userId ≠ "u1") ∧
    ((verifyProjectAccessRun idorProjects "p1" "u1" Role.CLIENT).1 = none ∧
     (verifyProjectAccessRun idorProjects "p1" "u1" Role.CLIENT).2 = []) :=
  ⟨by decide, ownership_check_denies_without_logging idorProjects "p1" "u1" (by decide)⟩

/-! ## Claim C3: security-log immutability -/

/-- A state with one admin, one client and one security-log row of the
    client. -/
def hardDeleteDemoState : AppState :=
  { users := [{ id := "adm", email := "x@y.z", role := Role.ADMIN },
              { id := "u2", email := "b@b.c" }],
    securityLogs := [{ event := "auth_success", userId := some "u2" }] }

/-- Claim C3, counterexample: the admin-only hard delete of account u2
    removes the previously written security-log row of u2, so the
    application does delete security-log entries. -/
theorem hardDelete_removes_target_securityLogs :
    ({ event := "auth_success", userId := some "u2" } : SecurityLogRow)
        ∈ hardDeleteDemoState.securityLogs ∧
    (permanentlyDeleteUser "adm" Role.ADMIN "u2" 5 hardDeleteDemoState).1 = true ∧
    ({ event := "auth_success", userId := some "u2" } : SecurityLogRow)
        ∉ (permanentlyDeleteUser "adm" Role.ADMIN "u2" 5 hardDeleteDemoState).2.securityLogs :=
  ⟨by decide, by decide, by decide⟩

/-- The security-log rows an operation is allowed to drop: only the hard
    delete drops rows, and only those of the deleted account. -/
def opSpares (op : AppOp) (row : SecurityLogRow) : Prop :=
  match op with
  | .hardDeleteOp _ _ t => row.userId ≠ some t
  | _ => True

/-- Claim C3, amended: every modelled application operation preserves every
    previously written security-log row, with the single exception of the
    admin-only hard delete, which removes exactly the rows whose userId is
    the hard-deleted account; rows of all other principals survive every
    operation unchanged. -/
theorem securityLog_append_only :
    ∀ (op : AppOp) (now : Nat) (st : AppState) (row : SecurityLogRow),
      row ∈ st.securityLogs → opSpares op row →
      row ∈ (applyOp op now st).securityLogs := by
  intro op now st row hmem hsp
  cases op with
  | logEvent r =>
    simp only [applyOp]
    exact List.mem_append_left _ hmem
  | issueVerification e tk => exact hmem
  | issueReset e tk => exact hmem
  | verifyEmailOp tk =>
    obtain ⟨tail, ht⟩ := verifyEmail_logs tk now st
    simp only [applyOp]
    rw [ht]
    exact List.mem_append_left _ hmem
  | resetPasswordOp hash tk pw =>
    obtain ⟨tail, ht⟩ := resetPassword_logs hash tk pw now st
    simp only [applyOp]
    rw [ht]
    exact List.mem_append_left _ hmem
  | softDeleteOp uid se =>
    obtain ⟨tail, ht⟩ := deleteUserAccount_logs uid se now st
    simp only [applyOp]
    rw [ht]
    exact List.mem_append_left _ hmem
  | restoreUserOp a r t =>
    obtain ⟨tail, ht⟩ := restoreUser_logs a r t now st
    simp only [applyOp]
    rw [ht]
    exact List.mem_append_left _ hmem
  | hardDeleteOp a r t =>
    have hcond : row.userId ≠ some t := hsp
    rcases permanentlyDeleteUser_logs a r t now st with h | ⟨tail, h⟩
    · simp only [applyOp]
      rw [h]
      exact hmem
    · simp only [applyOp]
      rw [h]
      exact List.mem_append_left _ (List.mem_filter.2 ⟨hmem, by simpa using hcond⟩)

/-- A one-row log state for the C3 witness. -/
def logDemoState : AppState :=
  { securityLogs := [{ event := "auth_failure" }] }

/-- Witness for the amended C3 theorem at a concrete input. -/
theorem securityLog_append_only_witness :
    (({ event := "auth_failure" } : SecurityLogRow) ∈ logDemoState.securityLogs) ∧
    opSpares (.logEvent { event := "data_access" }) { event := "auth_failure" } ∧
    ({ event := "auth_failure" } : SecurityLogRow) ∈
      (applyOp (.logEvent { event := "data_access" }) 3 logDemoState).securityLogs :=
  ⟨by decide, trivial,
   securityLog_append_only (.logEvent { event := "data_access" }) 3 logDemoState
     { event := "auth_failure" } (by decide) trivial⟩

/-! ## Claims C4 and C5: log counts and compare counts per authorize branch -/

/-- The attempt counter stored in a lockout-store entry. -/
def lockAttempts : Option LockoutState → Nat
  | none => 0
  | some s => s.attempts

lemma recordFailedAttempt_logs_length (st : Option LockoutState) (email : String)
    (now : Nat) :
    (recordFailedAttempt st email now).2.length =
      if lockoutThreshold ≤ (recordFailedAttempt st email now).1.attempts then 1 else 0 := by
  simp only [recordFailedAttempt]
  split <;> split <;> simp_all

lemma failure_logs_expand (email : String) (ls : Option LockoutState) (now : Nat) :
    (recordFailedAttempt ls email now).2.length + 1 =
      if lockoutThreshold ≤ (recordFailedAttempt ls email now).1.attempts then 2 else 1 := by
  rw [recordFailedAttempt_logs_length]
  by_cases hle : lockoutThreshold ≤ (recordFailedAttempt ls email now).1.attempts <;>
    simp [hle]

/-- Claim C4, amended: per authorize branch, the number of security-log
    rows written is: zero on missing credentials and on a locked account
    (the locked branch logs nothing); exactly one on a rate-limited
    attempt and on success; and on a missing/passwordless/soft-deleted
    account or a wrong password, one auth_failure row plus one extra
    lockout row exactly when the failure brings the rolling-window attempt
    count to the lockout threshold (two rows in that case, one otherwise). -/
theorem auth_branch_log_counts :
    ∀ (verify : String → String → Bool) (email password : String)
      (lockSt : Option LockoutState) (rl : List Nat) (user : Option User) (now : Nat),
      ((authorize verify email password lockSt rl user now).branch =
          AuthBranch.missingCredentials →
        (authorize verify email password lockSt rl user now).logs = []) ∧
      ((authorize verify email password lockSt rl user now).branch = AuthBranch.locked →
        (authorize verify email password lockSt rl user now).logs = []) ∧
      ((authorize verify email password lockSt rl user now).branch = AuthBranch.rateLimited →
        (authorize verify email password lockSt rl user now).logs.length = 1) ∧
      ((authorize verify email password lockSt rl user now).branch = AuthBranch.success →
        (authorize verify email password lockSt rl user now).logs.length = 1) ∧
      (((authorize verify email password lockSt rl user now).branch = AuthBranch.noUser ∨
        (authorize verify email password lockSt rl user now).branch = AuthBranch.wrongPassword) →
        (authorize verify email password lockSt rl user now).logs.length =
          if lockoutThreshold ≤
              lockAttempts (authorize verify email password lockSt rl user now).lockSt
          then 2 else 1) := by
  intro verify email password lockSt rl user now
  by_cases hcred : email = "" ∨ password = ""
  · simp [authorize, hcred]
  · cases hlock : checkAccountLockout lockSt now with
    | error e => simp [authorize, hcred, hlock]
    | ok lockSt1 =>
      cases hrl : checkAuthRateLimit rl now with
      | mk ok1 rl1 =>
        cases ok1 with
        | false => simp [authorize, hcred, hlock, hrl]
        | true =>
          cases user with
          | none =>
            simp [authorize, hcred, hlock, hrl, failureOutcome, lockAttempts,
              failure_logs_expand]
          | some u =>
            cases hhp : u.hashedPassword with
            | none =>
              simp [authorize, hcred, hlock, hrl, hhp, failureOutcome, lockAttempts,
                failure_logs_expand]
            | some h =>
              cases hda : u.deletedAt with
              | some d =>
                simp [authorize, hcred, hlock, hrl, hhp, hda, failureOutcome,
                  lockAttempts, failure_logs_expand]
              | none =>
                by_cases hv : verify password h = true
                · simp [authorize, hcred, hlock, hrl, hhp, hda, hv]
                · simp [authorize, hcred, hlock, hrl, hhp, hda, hv, failureOutcome,
                    lockAttempts, failure_logs_expand]

/-- A store entry locked until ms 1000000. -/
def lockedEntry : LockoutState :=
  { attempts := 5, firstAttemptAt := 0, lockedUntil := some 1000000, lastAttemptAt := 0 }

/-- A store entry carrying four recent failures. -/
def fourFailures : LockoutState :=
  { attempts := 4, firstAttemptAt := 0, lockedUntil := none, lastAttemptAt := 0 }

/-- An existing account with a credential hash. -/
def wrongPwUser : User := { id := "u1", email := "e@x.c", hashedPassword := some "h" }

/-- Claim C4, counterexample: the locked branch of an authentication
    attempt writes zero security-log rows, and the wrong-password branch
    that brings the rolling-window attempt count to the threshold writes
    two, so not every branch writes exactly one. -/
theorem auth_branch_log_counts_counterexample :
    ((authorize (fun _ _ => false) "e@x.c" "pw" (some lockedEntry) [] none 500000).branch =
        AuthBranch.locked ∧
     (authorize (fun _ _ => false) "e@x.c" "pw" (some lockedEntry) [] none 500000).logs.length = 0) ∧
    ((authorize (fun _ _ => false) "e@x.c" "pw" (some fourFailures) [] (some wrongPwUser) 1000).branch =
        AuthBranch.wrongPassword ∧
     (authorize (fun _ _ => false) "e@x.c" "pw" (some fourFailures) [] (some wrongPwUser) 1000).logs.length = 2) := by
  refine ⟨⟨?_, ?_⟩, ?_, ?_⟩ <;> decide

/-- Witness for the amended C4 theorem at a concrete input. -/
theorem auth_branch_log_counts_witness :
    ((authorize (fun _ _ => false) "e@x.c" "pw" (some fourFailures) [] (some wrongPwUser) 1000).branch =
        AuthBranch.noUser ∨
     (authorize (fun _ _ => false) "e@x.c" "pw" (some fourFailures) [] (some wrongPwUser) 1000).branch =
        AuthBranch.wrongPassword) ∧
    (authorize (fun _ _ => false) "e@x.c" "pw" (some fourFailures) [] (some wrongPwUser) 1000).logs.length =
      (if lockoutThreshold ≤
          lockAttempts (authorize (fun _ _ => false) "e@x.c" "pw" (some fourFailures) [] (some wrongPwUser) 1000).lockSt
       then 2 else 1) :=
  ⟨Or.inr (by decide),
   (auth_branch_log_counts (fun _ _ => false) "e@x.c" "pw" (some fourFailures) []
       (some wrongPwUser) 1000).2.2.2.2 (Or.inr (by decide))⟩

/-- Claim C5: every authentication attempt that passes the lockout and
    rate-limit checks invokes the password-comparison primitive exactly
    once: once against the fixed dummy hash when the account is missing,
    passwordless or soft-deleted, and once against the stored hash
    otherwise; the branches that never reach the comparison (missing
    credentials, locked, rate-limited) invoke it zero times. -/
theorem auth_single_password_compare :
    ∀ (verify : String → String → Bool) (email password : String)
      (lockSt : Option LockoutState) (rl : List Nat) (user : Option User) (now : Nat),
      (((authorize verify email password lockSt rl user now).branch = AuthBranch.noUser ∨
        (authorize verify email password lockSt rl user now).branch = AuthBranch.wrongPassword ∨
        (authorize verify email password lockSt rl user now).branch = AuthBranch.success) →
        (authorize verify email password lockSt rl user now).compares.length = 1) ∧
      ((authorize verify email password lockSt rl user now).branch = AuthBranch.noUser →
        (authorize verify email password lockSt rl user now).compares =
          [(password, dummyBcryptHash)]) ∧
      (((authorize verify email password lockSt rl user now).branch =
          AuthBranch.missingCredentials ∨
        (authorize verify email password lockSt rl user now).branch = AuthBranch.locked ∨
        (authorize verify email password lockSt rl user now).branch = AuthBranch.rateLimited) →
        (authorize verify email password lockSt rl user now).compares = []) := by
  intro verify email password lockSt rl user now
  by_cases hcred : email = "" ∨ password = ""
  · simp [authorize, hcred]
  · cases hlock : checkAccountLockout lockSt now with
    | error e => simp [authorize, hcred, hlock]
    | ok lockSt1 =>
      cases hrl : checkAuthRateLimit rl now with
      | mk ok1 rl1 =>
        cases ok1 with
        | false => simp [authorize, hcred, hlock, hrl]
        | true =>
          cases user with
          | none => simp [authorize, hcred, hlock, hrl, failureOutcome]
          | some u =>
            cases hhp : u.hashedPassword with
            | none => simp [authorize, hcred, hlock, hrl, hhp, failureOutcome]
            | some h =>
              cases hda : u.deletedAt with
              | some d => simp [authorize, hcred, hlock, hrl, hhp, hda, failureOutcome]
              | none =>
                by_cases hv : verify password h = true
                · simp [authorize, hcred, hlock, hrl, hhp, hda, hv]
                · simp [authorize, hcred, hlock, hrl, hhp, hda, hv, failureOutcome]

/-- Witness for the C5 theorem at a concrete input (missing account). -/
theorem auth_single_password_compare_witness :
    ((authorize (fun _ _ => true) "e@x.c" "pw" none [] none 0).branch = AuthBranch.noUser ∨
     (authorize (fun _ _ => true) "e@x.c" "pw" none [] none 0).branch = AuthBranch.wrongPassword ∨
     (authorize (fun _ _ => true) "e@x.c" "pw" none [] none 0).branch = AuthBranch.success) ∧
    (authorize (fun _ _ => true) "e@x.c" "pw" none [] none 0).compares.length = 1 ∧
    (authorize (fun _ _ => true) "e@x.c" "pw" none [] none 0).compares =
      [("pw", dummyBcryptHash)] :=
  ⟨Or.inl (by decide),
   (auth_single_password_compare (fun _ _ => true) "e@x.c" "pw" none [] none 0).1
     (Or.inl (by decide)),
   (auth_single_password_compare (fun _ _ => true) "e@x.c" "pw" none [] none 0).2.1
     (by decide)⟩

/-! ## Claim C7: lockout state machine -/

lemma recordFailedAttempt_locks (st : Option LockoutState) (email : String) (now : Nat) :
    lockoutThreshold ≤ (recordFailedAttempt st email now).1.attempts →
    (recordFailedAttempt st email now).1.lockedUntil = some (now + lockoutDuration) := by
  simp only [recordFailedAttempt]
  split <;> split <;> simp_all

lemma checkAccountLockout_locked (s : LockoutState) (u t : Nat)
    (h1 : s.lockedUntil = some u) (h2 : t < u) :
    checkAccountLockout (some s) t = .error (u - t) := by
  have hle : ¬ u ≤ t := by omega
  simp [checkAccountLockout, h1, hle]

/-- Claim C7: the lockout state machine.  In order: a failure that brings
    the attempt counter to the threshold sets lockedUntil 15 minutes ahead;
    while locked, the check rejects with the exact positive remaining time;
    after a locking failure, any check before the lock expires rejects with
    remaining time greater than zero and at most 15 minutes; a failure more
    than 30 minutes after the first failure of the window starts a new
    window with count 1 and no lock; a successful authentication clears the
    entry; an attempt for a locked email is rejected through the locked
    branch with no principal; and the success branch resets both the
    lockout entry and the rate-limit entry. -/
theorem lockout_state_machine :
    (∀ (st : Option LockoutState) (email : String) (now : Nat),
        lockoutThreshold ≤ (recordFailedAttempt st email now).1.attempts →
        (recordFailedAttempt st email now).1.lockedUntil = some (now + lockoutDuration)) ∧
    (∀ (s : LockoutState) (u t : Nat), s.lockedUntil = some u → t < u →
        checkAccountLockout (some s) t = .error (u - t) ∧ 0 < u - t) ∧
    (∀ (st : Option LockoutState) (email : String) (now t : Nat),
        lockoutThreshold ≤ (recordFailedAttempt st email now).1.attempts →
        now ≤ t → t < now + lockoutDuration →
        checkAccountLockout (some (recordFailedAttempt st email now).1) t =
          .error (now + lockoutDuration - t) ∧
        0 < now + lockoutDuration - t ∧ now + lockoutDuration - t ≤ lockoutDuration) ∧
    (∀ (s : LockoutState) (email : String) (now : Nat),
        attemptWindow < now - s.firstAttemptAt →
        (recordFailedAttempt (some s) email now).1 =
          { attempts := 1, firstAttemptAt := now, lockedUntil := none,
            lastAttemptAt := now }) ∧
    (∀ st : Option LockoutState, resetFailedAttempts st = none) ∧
    (∀ (verify : String → String → Bool) (email password : String) (s : LockoutState)
        (rl : List Nat) (user : Option User) (now u : Nat),
        email ≠ "" → password ≠ "" → s.lockedUntil = some u → now < u →
        (authorize verify email password (some s) rl user now).branch =
            AuthBranch.locked ∧
        (authorize verify email password (some s) rl user now).user = none) ∧
    (∀ (verify : String → String → Bool) (email password : String)
        (lockSt : Option LockoutState) (rl : List Nat) (user : Option User) (now : Nat),
        (authorize verify email password lockSt rl user now).branch =
            AuthBranch.success →
        (authorize verify email password lockSt rl user now).lockSt = none ∧
        (authorize verify email password lockSt rl user now).rl = []) := by
  refine ⟨recordFailedAttempt_locks, ?_, ?_, ?_, fun _ => rfl, ?_, ?_⟩
  · intro s u t h1 h2
    exact ⟨checkAccountLockout_locked s u t h1 h2, by omega⟩
  · intro st email now t hth h1 h2
    have hlock := recordFailedAttempt_locks st email now hth
    exact ⟨checkAccountLockout_locked _ _ _ hlock h2, by omega, by omega⟩
  · intro s email now h
    simp only [recordFailedAttempt]
    simp [h, lockoutThreshold]
  · intro verify email password s rl user now u hemail hpw hu hnow
    have hcred : ¬ (email = "" ∨ password = "") := by
      rintro (h | h)
      · exact hemail h
      · exact hpw h
    have hchk := checkAccountLockout_locked s u now hu hnow
    constructor <;> simp [authorize, hcred, hchk]
  · intro verify email password lockSt rl user now
    by_cases hcred : email = "" ∨ password = ""
    · simp [authorize, hcred]
    · cases hlock : checkAccountLockout lockSt now with
      | error e => simp [authorize, hcred, hlock]
      | ok lockSt1 =>
        cases hrl : checkAuthRateLimit rl now with
        | mk ok1 rl1 =>
          cases ok1 with
          | false => simp [authorize, hcred, hlock, hrl]
          | true =>
            cases user with
            | none => simp [authorize, hcred, hlock, hrl, failureOutcome]
            | some u =>
              cases hhp : u.hashedPassword with
              | none => simp [authorize, hcred, hlock, hrl, hhp, failureOutcome]
              | some h =>
                cases hda : u.deletedAt with
                | some d => simp [authorize, hcred, hlock, hrl, hhp, hda, failureOutcome]
                | none =>
                  by_cases hv : verify password h = true
                  · simp [authorize, hcred, hlock, hrl, hhp, hda, hv,
                      resetFailedAttempts, InMemoryRateLimiter.reset]
                  · simp [authorize, hcred, hlock, hrl, hhp, hda, hv, failureOutcome]

/-- Witness for the C7 theorem at concrete inputs: a 5th failure at ms 1000
    locks; a check at ms 2000 rejects with the exact remaining time; a
    locked entry makes a full authentication attempt take the locked
    branch. -/
theorem lockout_state_machine_witness :
    (checkAccountLockout (some (recordFailedAttempt (some fourFailures) "e@x.c" 1000).1) 2000 =
        .error (1000 + lockoutDuration - 2000) ∧
      0 < 1000 + lockoutDuration - 2000 ∧
      1000 + lockoutDuration - 2000 ≤ lockoutDuration) ∧
    ((authorize (fun _ _ => false) "e@x.c" "pw" (some lockedEntry) [] none 500000).branch =
        AuthBranch.locked ∧
     (authorize (fun _ _ => false) "e@x.c" "pw" (some lockedEntry) [] none 500000).user = none) :=
  ⟨lockout_state_machine.2.2.1 (some fourFailures) "e@x.c" 1000 2000
      (by decide) (by decide) (by decide),
   lockout_state_machine.2.2.2.2.2.1 (fun _ _ => false) "e@x.c" "pw" lockedEntry [] none
      500000 1000000 (by decide) (by decide) rfl (by decide)⟩

/-! ## Claim C6: single live token per (identifier, purpose) -/

/-- Claim C6: issuing a verification token leaves exactly one token row
    under the bare email identifier, expiring 24 hours ahead; issuing a
    reset token leaves exactly one row under the reset-prefixed identifier,
    expiring 1 hour ahead; and every modelled operation preserves the
    invariant that at most one token row exists per identifier, so at most
    one live token exists per (identifier, purpose) at any time. -/
theorem single_live_token :
    (∀ (op : AppOp) (now : Nat) (st : AppState),
        tokenUniq st → tokenUniq (applyOp op now st)) ∧
    (∀ (email tok : String) (now : Nat) (st : AppState),
        (createVerificationToken email tok now st).tokens.filter
            (fun r => decide (r.identifier = email)) =
          [{ identifier := email, token := tok,
             expires := now + verificationTokenExpiry }]) ∧
    (∀ (email tok : String) (now : Nat) (st : AppState),
        (createPasswordResetToken email tok now st).tokens.filter
            (fun r => decide (r.identifier = "reset:" ++ email)) =
          [{ identifier := "reset:" ++ email, token := tok,
             expires := now + resetTokenExpiry }]) := by
  refine ⟨?_, ?_, ?_⟩
  · intro op now st h
    cases op with
    | logEvent row => exact h
    | issueVerification e tk =>
      intro i
      show countIdent i
        ((st.tokens.filter (fun r => decide (r.identifier ≠ e))) ++
          [{ identifier := e, token := tk, expires := now + verificationTokenExpiry }]) ≤ 1
      rw [countIdent_append]
      by_cases hie : e = i
      · subst hie
        rw [countIdent_filter_ne]
        simp [countIdent]
      · have h1 := countIdent_filter_le i (fun r => decide (r.identifier ≠ e)) st.tokens
        have h2 := h i
        have h3 : countIdent i
            [({ identifier := e, token := tk,
                expires := now + verificationTokenExpiry } : TokenRow)] = 0 := by
          simp [countIdent, hie]
        omega
    | issueReset e tk =>
      intro i
      show countIdent i
        ((st.tokens.filter (fun r => decide (r.identifier ≠ "reset:" ++ e))) ++
          [{ identifier := "reset:" ++ e, token := tk,
             expires := now + resetTokenExpiry }]) ≤ 1
      rw [countIdent_append]
      by_cases hie : "reset:" ++ e = i
      · subst hie
        rw [countIdent_filter_ne]
        simp [countIdent]
      · have h1 := countIdent_filter_le i
          (fun r => decide (r.identifier ≠ "reset:" ++ e)) st.tokens
        have h2 := h i
        have h3 : countIdent i
            [({ identifier := "reset:" ++ e, token := tk,
                expires := now + resetTokenExpiry } : TokenRow)] = 0 := by
          simp [countIdent, hie]
        omega
    | verifyEmailOp tk =>
      intro i
      show countIdent i (verifyEmail tk now st).2.tokens ≤ 1
      rcases verifyEmail_tokens tk now st with heq | ⟨d, heq⟩
      · rw [heq]; exact h i
      · rw [heq]; exact le_trans (countIdent_filter_le _ _ _) (h i)
    | resetPasswordOp hash tk pw =>
      intro i
      show countIdent i (resetPassword hash tk pw now st).2.tokens ≤ 1
      rcases resetPassword_tokens hash tk pw now st with heq | ⟨d, heq⟩
      · rw [heq]; exact h i
      · rw [heq]; exact le_trans (countIdent_filter_le _ _ _) (h i)
    | softDeleteOp uid se =>
      intro i
      show countIdent i (deleteUserAccount uid se now st).2.tokens ≤ 1
      rw [deleteUserAccount_tokens]
      exact h i
    | hardDeleteOp a r t =>
      intro i
      show countIdent i (permanentlyDeleteUser a r t now st).2.tokens ≤ 1
      rw [permanentlyDeleteUser_tokens]
      exact h i
    | restoreUserOp a r t =>
      intro i
      show countIdent i (restoreUser a r t now st).2.tokens ≤ 1
      rw [restoreUser_tokens]
      exact h i
  · intro e tk now st
    simp only [createVerificationToken]
    rw [List.filter_append]
    have h1 : (st.tokens.filter (fun r => decide (r.identifier ≠ e))).filter
        (fun r => decide (r.identifier = e)) = [] := by
      rw [List.filter_filter, List.filter_eq_nil_iff]
      intro a ha
      by_cases hae : a.identifier = e <;> simp [hae]
    rw [h1]
    simp
  · intro e tk now st
    simp only [createPasswordResetToken]
    rw [List.filter_append]
    have h1 : (st.tokens.filter (fun r => decide (r.identifier ≠ "reset:" ++ e))).filter
        (fun r => decide (r.identifier = "reset:" ++ e)) = [] := by
      rw [List.filter_filter, List.filter_eq_nil_iff]
      intro a ha
      by_cases hae : a.identifier = "reset:" ++ e <;> simp [hae]
    rw [h1]
    simp

/-- The empty persistent state. -/
def emptyState : AppState := {}

/-- Witness for the C6 theorem at a concrete input. -/
theorem single_live_token_witness :
    tokenUniq emptyState ∧
    tokenUniq (applyOp (.issueVerification "a@b.c" "t1") 7 emptyState) := by
  have h0 : tokenUniq emptyState := by
    intro i
    simp [emptyState, countIdent]
  exact ⟨h0, single_live_token.1 (.issueVerification "a@b.c" "t1") 7 emptyState h0⟩

/-! ## Claim C8: verifyEmail consumes a token exactly once -/

lemma verifyEmail_fail (tok : String) (now : Nat) (st : AppState)
    (h : st.tokens.find?
      (fun r => decide (r.token = tok) && decide (now < r.expires)) = none) :
    (verifyEmail tok now st).1 =
      { success := false, message := invalidVerificationMessage, email := none } := by
  simp [verifyEmail, h]

/-- Claim C8: on a stored, non-expired token whose email belongs to an
    account, verifyEmail succeeds, marks that account verified and deletes
    the token rows of that identifier, so the token value no longer exists;
    a second call with the same token, and more generally any call on a
    state with no live row for the token (absent or expired alike), returns
    the same generic failure message without revealing which case
    occurred. -/
theorem verifyEmail_consumes_once :
    ∀ (st : AppState) (tok : String) (now now2 : Nat) (row : TokenRow),
      st.tokens.filter (fun r => decide (r.token = tok)) = [row] →
      now < row.expires →
      (st.users.find? (fun u => decide (u.email = row.identifier))).isSome →
      ((verifyEmail tok now st).1.success = true ∧
       (verifyEmail tok now st).1.message = verifySuccessMessage) ∧
      (∀ u ∈ (verifyEmail tok now st).2.users,
        u.email = row.identifier → u.emailVerified = some now) ∧
      (verifyEmail tok now st).2.tokens.filter (fun r => decide (r.token = tok)) = [] ∧
      (verifyEmail tok now2 (verifyEmail tok now st).2).1 =
        { success := false, message := invalidVerificationMessage, email := none } ∧
      (∀ st2 : AppState,
        st2.tokens.filter
            (fun r => decide (r.token = tok) && decide (now2 < r.expires)) = [] →
        (verifyEmail tok now2 st2).1 =
          { success := false, message := invalidVerificationMessage, email := none }) := by
  intro st tok now now2 row hfilter hexp hfind
  obtain ⟨u0, hu0⟩ := Option.isSome_iff_exists.1 hfind
  have hfind1 : st.tokens.find?
      (fun r => decide (r.token = tok) && decide (now < r.expires)) = some row :=
    token_find_of_filter_singleton _ _ _ _ hfilter (by simpa using hexp)
  have htok : (verifyEmail tok now st).2.tokens =
      st.tokens.filter (fun r => decide (r.identifier ≠ row.identifier)) := by
    simp [verifyEmail, hfind1, hu0]
  have hdel : (verifyEmail tok now st).2.tokens.filter
      (fun r => decide (r.token = tok)) = [] := by
    rw [htok]
    exact filter_token_delete st.tokens tok row _ hfilter (by simp)
  refine ⟨⟨?_, ?_⟩, ?_, hdel, ?_, ?_⟩
  · simp [verifyEmail, hfind1, hu0]
  · simp [verifyEmail, hfind1, hu0]
  · intro u hu hmail
    simp only [verifyEmail, hfind1, hu0] at hu
    obtain ⟨v, hv, rfl⟩ := List.mem_map.1 hu
    by_cases h : v.email = row.identifier
    · simp [h]
    · simp [h] at hmail
  · exact verifyEmail_fail tok now2 (verifyEmail tok now st).2
      (find?_and_eq_none _ _ _ hdel)
  · intro st2 h2
    exact verifyEmail_fail tok now2 st2
      (List.find?_eq_none.2 (List.filter_eq_nil_iff.1 h2))

/-- The token row of the C8 witness. -/
def verifyDemoToken : TokenRow := { identifier := "a@b.c", token := "t1", expires := 100 }

/-- A state with one unverified account and one live verification token. -/
def verifyDemoState : AppState :=
  { users := [{ id := "u1", email := "a@b.c" }], tokens := [verifyDemoToken] }

/-- Witness for the C8 theorem at a concrete input. -/
theorem verifyEmail_consumes_once_witness :
    verifyDemoState.tokens.filter (fun r => decide (r.token = "t1")) = [verifyDemoToken] ∧
    50 < verifyDemoToken.expires ∧
    (verifyDemoState.users.find?
      (fun u => decide (u.email = verifyDemoToken.identifier))).isSome ∧
    (verifyEmail "t1" 50 verifyDemoState).1.success = true ∧
    (verifyEmail "t1" 60 (verifyEmail "t1" 50 verifyDemoState).2).1 =
      { success := false, message := invalidVerificationMessage, email := none } :=
  ⟨by decide, by decide, by decide,
   (verifyEmail_consumes_once verifyDemoState "t1" 50 60 verifyDemoToken
      (by decide) (by decide) (by decide)).1.1,
   (verifyEmail_consumes_once verifyDemoState "t1" 50 60 verifyDemoToken
      (by decide) (by decide) (by decide)).2.2.2.1⟩

/-! ## Claim C9: resetPassword leaves the token on rejected input -/

/-- Claim C9: calling resetPassword with a live reset token and a password
    that fails validation (shorter than 8 characters) rejects before
    touching any state, leaving the token un-consumed and the credential
    hash unchanged; a subsequent call with the same token and a strong
    password succeeds, updates the credential hash of the account and
    consumes the token. -/
theorem resetPassword_weak_then_strong :
    ∀ (hash : String → String) (st : AppState) (tok weak strong : String)
      (now now2 : Nat) (row : TokenRow) (u : User),
      weak.length < 8 → 8 ≤ strong.length →
      st.tokens.filter (fun r => decide (r.token = tok)) = [row] →
      now2 < row.expires →
      "reset:".data.isPrefixOf row.identifier.data = true →
      st.users.find? (fun v => decide (v.email = row.identifier.drop 6) &&
          decide (v.deletedAt = none)) = some u →
      (resetPassword hash tok weak now st).1 =
        { success := false, message := "Password must be at least 8 characters long." } ∧
      (resetPassword hash tok weak now st).2 = st ∧
      (resetPassword hash tok strong now2 (resetPassword hash tok weak now st).2).1.success =
        true ∧
      (∀ v ∈ (resetPassword hash tok strong now2
          (resetPassword hash tok weak now st).2).2.users,
        v.id = u.id → v.hashedPassword = some (hash strong)) ∧
      (resetPassword hash tok strong now2
          (resetPassword hash tok weak now st).2).2.tokens.filter
        (fun r => decide (r.token = tok)) = [] := by
  intro hash st tok weak strong now now2 row u hw hs hfilter hexp hpref hufind
  have hweak : resetPassword hash tok weak now st =
      ({ success := false, message := "Password must be at least 8 characters long." }, st) := by
    simp [resetPassword, hw]
  have hns : ¬ strong.length < 8 := by omega
  have hfind : st.tokens.find? (fun r => decide (r.token = tok) &&
      (decide (now2 < r.expires) && "reset:".data.isPrefixOf r.identifier.data)) = some row :=
    token_find_of_filter_singleton _ _ _ _ hfilter (by simp [hexp, hpref])
  refine ⟨by rw [hweak], by rw [hweak], ?_, ?_, ?_⟩
  · rw [hweak]
    simp [resetPassword, hns, hfind, hufind]
  · rw [hweak]
    intro v hv hid
    simp only [resetPassword, if_neg hns, hfind, hufind] at hv
    obtain ⟨w, hw', rfl⟩ := List.mem_map.1 hv
    by_cases h : w.id = u.id
    · simp [h]
    · simp [h] at hid
  · rw [hweak]
    have htok : (resetPassword hash tok strong now2 st).2.tokens =
        st.tokens.filter (fun r =>
          decide (¬ (r.identifier = row.identifier ∧ r.token = row.token))) := by
      simp [resetPassword, hns, hfind, hufind]
    rw [htok]
    exact filter_token_delete st.tokens tok row _ hfilter (by simp)

/-- The token row of the C9 witness. -/
def resetDemoToken : TokenRow := { identifier := "reset:a@b.c", token := "t9", expires := 100 }

/-- A state with one account and one live reset token. -/
def resetDemoState : AppState :=
  { users := [{ id := "u1", email := "a@b.c" }], tokens := [resetDemoToken] }

/-- Witness for the C9 theorem at a concrete input. -/
theorem resetPassword_weak_then_strong_witness :
    ("weak".length < 8 ∧ 8 ≤ "Str0ngPass".length ∧
     resetDemoState.tokens.filter (fun r => decide (r.token = "t9")) = [resetDemoToken] ∧
     50 < resetDemoToken.expires ∧
     "reset:".data.isPrefixOf resetDemoToken.identifier.data = true) ∧
    (resetPassword (fun s => "H" ++ s) "t9" "weak" 40 resetDemoState).2 = resetDemoState ∧
    (resetPassword (fun s => "H" ++ s) "t9" "Str0ngPass" 50
        (resetPassword (fun s => "H" ++ s) "t9" "weak" 40 resetDemoState).2).1.success = true :=
  ⟨⟨by decide, by decide, by decide, by decide, by decide⟩,
   (resetPassword_weak_then_strong (fun s => "H" ++ s) resetDemoState "t9" "weak"
      "Str0ngPass" 40 50 resetDemoToken { id := "u1", email := "a@b.c" }
      (by decide) (by decide) (by decide) (by decide) (by decide) (by decide)).2.1,
   (resetPassword_weak_then_strong (fun s => "H" ++ s) resetDemoState "t9" "weak"
      "Str0ngPass" 40 50 resetDemoToken { id := "u1", email := "a@b.c" }
      (by decide) (by decide) (by decide) (by decide) (by decide) (by decide)).2.2.1⟩

/-! ## Claim C10: soft delete idempotence -/

lemma find?_id_map (l : List User) (uid : String) (f : User → User)
    (hf : ∀ u, (f u).id = u.id) :
    (l.map f).find? (fun u => decide (u.id = uid)) =
      (l.find? (fun u => decide (u.id = uid))).map f := by
  induction l with
  | nil => rfl
  | cons a as ih =>
    by_cases ha : a.id = uid
    · simp [List.find?_cons, hf, ha]
    · simp [List.find?_cons, hf, ha, ih]

lemma filter_self_idem {α : Type} (l : List α) (p : α → Bool) :
    (l.filter p).filter p = l.filter p := by
  rw [List.filter_filter]
  simp [Bool.and_self]

lemma map_eq_self {α : Type} (l : List α) (f : α → α) (h : ∀ a ∈ l, f a = a) :
    l.map f = l := by
  induction l with
  | nil => rfl
  | cons a as ih =>
    rw [List.map_cons, h a (by simp), ih (fun x hx => h x (by simp [hx]))]

lemma deleteUserAccount_found (uid : String) (se : Option String) (now : Nat)
    (st : AppState) (u : User)
    (h : st.users.find? (fun v => decide (v.id = uid)) = some u) :
    (deleteUserAccount uid se now st).1 = true ∧
    (deleteUserAccount uid se now st).2.users =
      st.users.map (fun v => if decide (v.id = uid) then
        { v with deletedAt := some now,
                 email := "deleted_" ++ uid ++ "@deleted.local",
                 name := some "Deleted User",
                 hashedPassword := none, image := none, emailVerified := none }
      else v) ∧
    (deleteUserAccount uid se now st).2.projects =
      st.projects.map (fun p =>
        if decide (p.userId = uid) && decide (p.deletedAt = none) then
          { p with deletedAt := some now } else p) ∧
    (deleteUserAccount uid se now st).2.sessions =
      st.sessions.filter (fun s => decide (s.userId ≠ uid)) ∧
    (deleteUserAccount uid se now st).2.oauthAccounts =
      st.oauthAccounts.filter (fun a => decide (a.userId ≠ uid)) := by
  refine ⟨?_, ?_, ?_, ?_, ?_⟩ <;> simp [deleteUserAccount, h]

/-- A state with one account owning one project. -/
def softDeleteDemoState : AppState :=
  { users := [{ id := "u1", email := "a@b.c", hashedPassword := some "h" }],
    projects := [{ id := "p1", userId := "u1" }] }

/-- Claim C10, counterexample: running deleteUserAccount twice at ms 1000
    and ms 2000 leaves a different final state than running it once - the
    second invocation overwrites the soft-delete marker of the account
    with its own timestamp, so the marker is not left exactly as the first
    invocation left it. -/
theorem softDelete_twice_refreshes_marker :
    (deleteUserAccount "u1" (some "a@b.c") 1000 softDeleteDemoState).1 = true ∧
    (deleteUserAccount "u1" (some "a@b.c") 2000
        (deleteUserAccount "u1" (some "a@b.c") 1000 softDeleteDemoState).2).1 = true ∧
    (deleteUserAccount "u1" (some "a@b.c") 1000 softDeleteDemoState).2.users.map
        (fun u => u.deletedAt) = [some 1000] ∧
    (deleteUserAccount "u1" (some "a@b.c") 2000
        (deleteUserAccount "u1" (some "a@b.c") 1000 softDeleteDemoState).2).2.users.map
        (fun u => u.deletedAt) = [some 2000] ∧
    ¬ (deleteUserAccount "u1" (some "a@b.c") 2000
        (deleteUserAccount "u1" (some "a@b.c") 1000 softDeleteDemoState).2).2.users =
      (deleteUserAccount "u1" (some "a@b.c") 1000 softDeleteDemoState).2.users := by
  refine ⟨?_, ?_, ?_, ?_, ?_⟩ <;> decide

/-- Claim C10, amended: a second deleteUserAccount invocation on an
    already-deleted account succeeds without error and leaves the
    anonymized email and name, the nulled credential hash, image and
    verification flag, the soft-deleted projects, and the emptied session
    and OAuth-account tables exactly as the first invocation left them;
    the only user-row change is that the account soft-delete timestamp is
    refreshed to the second invocation time, so two invocations at the
    same instant leave the user rows identical. -/
theorem softDelete_idempotent_amended :
    ∀ (st : AppState) (uid : String) (se1 se2 : Option String) (t1 t2 : Nat),
      (st.users.find? (fun u => decide (u.id = uid))).isSome →
      (deleteUserAccount uid se1 t1 st).1 = true ∧
      (deleteUserAccount uid se2 t2 (deleteUserAccount uid se1 t1 st).2).1 = true ∧
      (deleteUserAccount uid se2 t2 (deleteUserAccount uid se1 t1 st).2).2.projects =
        (deleteUserAccount uid se1 t1 st).2.projects ∧
      (deleteUserAccount uid se2 t2 (deleteUserAccount uid se1 t1 st).2).2.sessions =
        (deleteUserAccount uid se1 t1 st).2.sessions ∧
      (deleteUserAccount uid se2 t2 (deleteUserAccount uid se1 t1 st).2).2.oauthAccounts =
        (deleteUserAccount uid se1 t1 st).2.oauthAccounts ∧
      (deleteUserAccount uid se2 t2 (deleteUserAccount uid se1 t1 st).2).2.users =
        (deleteUserAccount uid se1 t1 st).2.users.map
          (fun u => if decide (u.id = uid) then { u with deletedAt := some t2 } else u) ∧
      (t2 = t1 →
        (deleteUserAccount uid se2 t2 (deleteUserAccount uid se1 t1 st).2).2.users =
          (deleteUserAccount uid se1 t1 st).2.users) := by
  intro st uid se1 se2 t1 t2 hfind
  obtain ⟨u0, hu0⟩ := Option.isSome_iff_exists.1 hfind
  have hg1id : ∀ u : User,
      ((fun u : User => if decide (u.id = uid) then
          { u with deletedAt := some t1,
                   email := "deleted_" ++ uid ++ "@deleted.local",
                   name := some "Deleted User",
                   hashedPassword := none, image := none, emailVerified := none }
        else u) u).id = u.id := by
    intro u
    by_cases h : u.id = uid <;> simp [h]
  obtain ⟨hres1, husers1, hproj1, hsess1, hoauth1⟩ :=
    deleteUserAccount_found uid se1 t1 st u0 hu0
  have hfind2 : (deleteUserAccount uid se1 t1 st).2.users.find?
      (fun u => decide (u.id = uid)) ≠ none := by
    rw [husers1, find?_id_map _ _ _ hg1id, hu0]
    simp
  obtain ⟨u1, hu1⟩ : ∃ u1, (deleteUserAccount uid se1 t1 st).2.users.find?
      (fun u => decide (u.id = uid)) = some u1 := by
    cases hcase : (deleteUserAccount uid se1 t1 st).2.users.find?
        (fun u => decide (u.id = uid)) with
    | none => exact absurd hcase hfind2
    | some v => exact ⟨v, rfl⟩
  obtain ⟨hres2, husers2, hproj2, hsess2, hoauth2⟩ :=
    deleteUserAccount_found uid se2 t2 (deleteUserAccount uid se1 t1 st).2 u1 hu1
  have husersEq : (deleteUserAccount uid se2 t2
      (deleteUserAccount uid se1 t1 st).2).2.users =
      (deleteUserAccount uid se1 t1 st).2.users.map
        (fun u => if decide (u.id = uid) then { u with deletedAt := some t2 } else u) := by
    rw [husers2, husers1, List.map_map, List.map_map]
    apply List.map_congr_left
    intro v _
    by_cases h : v.id = uid <;> simp [Function.comp, h]
  refine ⟨hres1, hres2, ?_, ?_, ?_, husersEq, ?_⟩
  · rw [hproj2, hproj1, List.map_map]
    apply List.map_congr_left
    intro p _
    by_cases hpu : p.userId = uid <;> by_cases hpd : p.deletedAt = none <;>
      simp [Function.comp, hpu, hpd]
  · rw [hsess2, hsess1]
    exact filter_self_idem _ _
  · rw [hoauth2, hoauth1]
    exact filter_self_idem _ _
  · intro he
    subst he
    rw [husersEq]
    apply map_eq_self
    intro v hv
    rw [husers1] at hv
    obtain ⟨w, hw, rfl⟩ := List.mem_map.1 hv
    by_cases h : w.id = uid <;> simp [h]

/-- Witness for the amended C10 theorem at a concrete input. -/
theorem softDelete_idempotent_amended_witness :
    (softDeleteDemoState.users.find? (fun u => decide (u.id = "u1"))).isSome ∧
    (deleteUserAccount "u1" (some "a@b.c") 1000 softDeleteDemoState).1 = true ∧
    (deleteUserAccount "u1" (some "a@b.c") 2000
        (deleteUserAccount "u1" (some "a@b.c") 1000 softDeleteDemoState).2).1 = true :=
  ⟨by decide,
   (softDelete_idempotent_amended softDeleteDemoState "u1" (some "a@b.c") (some "a@b.c")
      1000 2000 (by decide)).1,
   (softDelete_idempotent_amended softDeleteDemoState "u1" (some "a@b.c") (some "a@b.c")
      1000 2000 (by decide)).2.1⟩

end CostConfirm
